import Mathlib

/-!
Shallow embedding of the GameTracker backend library logic
(src/backend/routes/games.js: the Express route handlers together with the
Mongoose user model that the same file carries: gameEntrySchema, userSchema,
updateStats, hasGame, getGame).

Conventions of the embedding:
* JS numbers are modelled as `ℚ` (ratings) or `Int` (ids, timestamps).
* `null`/absent JSON fields are `Option.none`.
* A Mongoose user document is a `UserState`: the embedded `gameLibrary`
  array (insertion order preserved) plus the embedded `stats` object.
* Each route handler is a pure function from the request data and the
  current user state to an HTTP response (status code, message) and the
  new user state.  `Date.now()` / `new Date()` is passed in as `now`.
* Joi validation (abortEarly, schema key order) is modelled by validators
  returning `Except String`, checking keys in schema declaration order and
  stopping at the first failure.
* `Array.prototype.sort` (guaranteed stable, in place) is modelled with
  `List.mergeSort` applied to the stored library.
-/

namespace GameTracker

/-- Lifecycle status of a library entry
(gameEntrySchema.status enum in games.js). -/
inductive Status where
  | playing
  | completed
  | dropped
  | planToPlay
deriving DecidableEq, Repr

/-- The wire string of a status, as stored in Mongo and sent by clients. -/
def Status.toWire : Status → String
  | .playing => "playing"
  | .completed => "completed"
  | .dropped => "dropped"
  | .planToPlay => "plan-to-play"

/-- Parse a client status string against the Joi
`valid('playing','completed','dropped','plan-to-play')` enum. -/
def parseStatus (s : String) : Option Status :=
  if s = "playing" then some .playing
  else if s = "completed" then some .completed
  else if s = "dropped" then some .dropped
  else if s = "plan-to-play" then some .planToPlay
  else none

/-- One embedded game entry (gameEntrySchema in games.js). -/
structure GameEntry where
  gameId : Int
  name : String
  background_image : Option String
  released : Option String
  rating : Option ℚ
  platforms : List (Int × String)
  genres : List (Int × String)
  status : Status
  userRating : Option ℚ
  dateAdded : Int
  dateCompleted : Option Int
  notes : String
deriving DecidableEq, Repr

/-- The embedded stats object (userSchema.stats in games.js). -/
structure Stats where
  totalGames : Nat
  completedGames : Nat
  averageRating : ℚ
deriving DecidableEq, Repr

/-- The part of a user document that the library routes touch. -/
structure UserState where
  gameLibrary : List GameEntry
  stats : Stats
deriving DecidableEq, Repr

/-- userSchema.methods.updateStats: full recomputation of the stats from
the library.  `Math.round(x * 10) / 10` is `(round (x * 10) : ℚ) / 10`
(JS `Math.round` rounds half toward +∞, as does Mathlib's `round`). -/
def computeStats (lib : List GameEntry) : Stats :=
  let completedGames := lib.filter (fun g => g.status = Status.completed)
  let ratedGames := completedGames.filter (fun g => g.userRating ≠ none)
  { totalGames := lib.length
    completedGames := completedGames.length
    averageRating :=
      if ratedGames.length > 0 then
        let totalRating := (ratedGames.map (fun g => g.userRating.getD 0)).sum
        ((round ((totalRating / (ratedGames.length : ℚ)) * 10) : ℤ) : ℚ) / 10
      else 0 }

/-- userSchema.methods.hasGame. -/
def hasGame (st : UserState) (gid : Int) : Bool :=
  st.gameLibrary.any (fun g => g.gameId = gid)

/-- userSchema.methods.getGame (`Array.prototype.find`: first match). -/
def getGame (st : UserState) (gid : Int) : Option GameEntry :=
  st.gameLibrary.find? (fun g => g.gameId = gid)

/-! ### Request validation (Joi schemas) -/

/-- Raw body of `POST /api/games/library`, before Joi validation.
`none` is an absent (or JSON-null, where allowed) field. -/
structure RawAddRequest where
  gameId : Option Int
  name : Option String
  background_image : Option String
  released : Option String
  rating : Option ℚ
  platforms : List (Int × String)
  genres : List (Int × String)
  status : Option String
deriving DecidableEq, Repr

/-- Validated body of `POST /api/games/library`. -/
structure AddRequest where
  gameId : Int
  name : String
  background_image : Option String
  released : Option String
  rating : Option ℚ
  platforms : List (Int × String)
  genres : List (Int × String)
  status : Status
deriving DecidableEq, Repr

/-- addGameSchema.validate: abortEarly, keys in schema order
(gameId, name, ..., status); the reported message is the first failure. -/
def validateAdd (r : RawAddRequest) : Except String AddRequest :=
  match r.gameId with
  | none => .error "\"gameId\" is required"
  | some gid =>
    match r.name with
    | none => .error "\"name\" is required"
    | some nm =>
      match r.status with
      | none => .error "\"status\" is required"
      | some s =>
        match parseStatus s with
        | none =>
          .error "\"status\" must be one of [playing, completed, dropped, plan-to-play]"
        | some st =>
          .ok { gameId := gid, name := nm, background_image := r.background_image,
                released := r.released, rating := r.rating, platforms := r.platforms,
                genres := r.genres, status := st }

/-- Raw body of `PUT /api/games/library/:gameId`.  The outer `Option` is
field presence; for `userRating` the inner `Option` is JSON null
(allowed by the schema). -/
structure RawUpdateRequest where
  status : Option String
  userRating : Option (Option ℚ)
  notes : Option String
deriving DecidableEq, Repr

/-- Validated body of `PUT /api/games/library/:gameId`
(updateGameSchema allows only these three keys). -/
structure UpdateRequest where
  status : Option Status
  userRating : Option (Option ℚ)
  notes : Option String
deriving DecidableEq, Repr

/-- updateGameSchema.validate: abortEarly, keys in schema order
(status, userRating, notes). -/
def validateUpdate (r : RawUpdateRequest) : Except String UpdateRequest :=
  match r.status with
  | some s =>
    match parseStatus s with
    | none =>
      .error "\"status\" must be one of [playing, completed, dropped, plan-to-play]"
    | some st => validateUpdateRating r (some st)
  | none => validateUpdateRating r none
where
  validateUpdateRating (r : RawUpdateRequest) (st : Option Status) :
      Except String UpdateRequest :=
    match r.userRating with
    | some (some q) =>
      if q < 1 then .error "\"userRating\" must be greater than or equal to 1"
      else if 10 < q then .error "\"userRating\" must be less than or equal to 10"
      else validateUpdateNotes r st (some (some q))
    | ur => validateUpdateNotes r st ur
  validateUpdateNotes (r : RawUpdateRequest) (st : Option Status)
      (ur : Option (Option ℚ)) : Except String UpdateRequest :=
    match r.notes with
    | some s =>
      if 500 < s.length then
        .error "\"notes\" length must be less than or equal to 500 characters long"
      else .ok { status := st, userRating := ur, notes := some s }
    | none => .ok { status := st, userRating := ur, notes := none }

/-! ### Route handlers -/

/-- An HTTP response: status code and message. -/
structure Resp where
  code : Nat
  message : String
deriving DecidableEq, Repr

/-- POST /api/games/library: validate, reject duplicates, push the new
entry (Mongoose defaults: userRating null, dateAdded now, dateCompleted
null, notes ''), recompute stats. -/
def addGame (now : Int) (st : UserState) (r : RawAddRequest) :
    Resp × UserState :=
  match validateAdd r with
  | .error m => (⟨400, m⟩, st)
  | .ok d =>
    if hasGame st d.gameId then
      (⟨400, "Game already in library"⟩, st)
    else
      let entry : GameEntry :=
        { gameId := d.gameId, name := d.name,
          background_image := d.background_image, released := d.released,
          rating := d.rating, platforms := d.platforms, genres := d.genres,
          status := d.status, userRating := none, dateAdded := now,
          dateCompleted := none, notes := "" }
      let lib := st.gameLibrary ++ [entry]
      (⟨201, "Game added to library"⟩,
       { gameLibrary := lib, stats := computeStats lib })

/-- The in-place mutation of the first matching element of a JS array
(the object returned by `find` is aliased into the array). -/
def replaceFirst (p : GameEntry → Bool) (g' : GameEntry) :
    List GameEntry → List GameEntry
  | [] => []
  | g :: gs => if p g then g' :: gs else g :: replaceFirst p g' gs

/-- The body of PUT /api/games/library/:gameId acting on the found entry:
first the `Object.keys(updateData).forEach` merge of the provided fields,
then the dateCompleted conditional — note that the merge has already
overwritten `game.status`, exactly as in the source. -/
def applyUpdate (now : Int) (g : GameEntry) (u : UpdateRequest) : GameEntry :=
  let g1 : GameEntry :=
    { g with
      status := u.status.getD g.status
      userRating := match u.userRating with
        | some v => v
        | none => g.userRating
      notes := u.notes.getD g.notes }
  if u.status = some Status.completed ∧ g1.status ≠ Status.completed then
    { g1 with dateCompleted := some now }
  else if u.status ≠ some Status.completed then
    { g1 with dateCompleted := none }
  else g1

/-- PUT /api/games/library/:gameId. -/
def updateGame (now : Int) (st : UserState) (gid : Int)
    (r : RawUpdateRequest) : Resp × UserState :=
  match validateUpdate r with
  | .error m => (⟨400, m⟩, st)
  | .ok u =>
    match getGame st gid with
    | none => (⟨404, "Game not found in library"⟩, st)
    | some g =>
      let g' := applyUpdate now g u
      let lib := replaceFirst (fun e => e.gameId = gid) g' st.gameLibrary
      (⟨200, "Game updated successfully"⟩,
       { gameLibrary := lib, stats := computeStats lib })

/-- DELETE /api/games/library/:gameId: `findIndex` then `splice(i, 1)`
(removal of the first match; 404 when absent). -/
def removeGame (st : UserState) (gid : Int) : Resp × UserState :=
  match st.gameLibrary.findIdx? (fun g => g.gameId = gid) with
  | none => (⟨404, "Game not found in library"⟩, st)
  | some i =>
    let lib := st.gameLibrary.take i ++ st.gameLibrary.drop (i + 1)
    (⟨200, "Game removed from library"⟩,
     { gameLibrary := lib, stats := computeStats lib })

/-! ### GET /api/games/library (listing) -/

/-- Query parameters of the listing route.  `none` = absent parameter;
the handler's destructuring defaults are applied in `listGames`. -/
structure ListQuery where
  status : Option String
  sortBy : Option String
  order : Option String
deriving DecidableEq, Repr

/-- JS truthiness of an optional query string (`if (status)`). -/
def truthy : Option String → Bool
  | none => false
  | some s => s ≠ ""

/-- `a.name.localeCompare(b.name)` modelled as the sign of the string
order. -/
def nameCmp (a b : String) : ℚ :=
  if a < b then -1 else if b < a then 1 else 0

/-- The `comparison` value of the listing comparator for one sort key
(the `switch (sortBy)` in the route). -/
def jsCmp (sortBy : String) (a b : GameEntry) : ℚ :=
  if sortBy = "name" then nameCmp a.name b.name
  else if sortBy = "rating" then (a.userRating.getD 0) - (b.userRating.getD 0)
  else if sortBy = "dateAdded" then ((a.dateAdded - b.dateAdded : ℤ) : ℚ)
  else if sortBy = "dateCompleted" then
    ((a.dateCompleted.getD 0 - b.dateCompleted.getD 0 : ℤ) : ℚ)
  else ((a.dateAdded - b.dateAdded : ℤ) : ℚ)

/-- The full comparator passed to `games.sort`: `order === 'asc'`
keeps the comparison, anything else negates it. -/
def effCmp (sortBy order : String) (a b : GameEntry) : ℚ :=
  if order = "asc" then jsCmp sortBy a b else -(jsCmp sortBy a b)

/-- The "comes no later" relation a stable comparator sort realises. -/
def jsLe (sortBy order : String) (a b : GameEntry) : Bool :=
  effCmp sortBy order a b ≤ 0

/-- The filter stage of the listing route:
`let games = req.user.gameLibrary; if (status) games = games.filter(...)`.
When the status parameter is truthy this produces a fresh array;
otherwise `games` is still the stored library itself. -/
def filterStage (lib : List GameEntry) (status : Option String) :
    List GameEntry :=
  if truthy status then
    lib.filter (fun g => g.status.toWire = status.getD "")
  else lib

/-- GET /api/games/library.  Returns the response list and the user state
after the call: `games.sort(comparator)` sorts in place (modelled by the
stable `List.mergeSort`), so without a truthy status filter the stored
`gameLibrary` itself comes back reordered, while with a filter the sort
hits the fresh filtered array and the stored library is untouched. -/
def listGames (st : UserState) (q : ListQuery) : List GameEntry × UserState :=
  let sortBy := q.sortBy.getD "dateAdded"
  let order := q.order.getD "desc"
  let games := (filterStage st.gameLibrary q.status).mergeSort (jsLe sortBy order)
  (games, if truthy q.status then st else { st with gameLibrary := games })

/-! ### Theorems -/

/-- A sample entry for concrete witnesses. -/
def entryA : GameEntry :=
  ⟨1, "A", none, none, none, [], [], .playing, none, 1, none, ""⟩

/-- A second sample entry for concrete witnesses. -/
def entryB : GameEntry :=
  ⟨2, "B", none, none, none, [], [], .playing, none, 2, none, ""⟩

/-- A sample two-entry user state for concrete witnesses. -/
def sampleState : UserState := ⟨[entryA, entryB], ⟨2, 0, 0⟩⟩

/-- C3: a valid add request whose external game id is already in the
library is rejected with status 400 and the user state (library and
stats) is returned unchanged. -/
theorem duplicate_add_rejected_unchanged (now : Int) (st : UserState)
    (r : RawAddRequest) (d : AddRequest) (hv : validateAdd r = .ok d)
    (hdup : hasGame st d.gameId = true) :
    addGame now st r = (⟨400, "Game already in library"⟩, st) := by
  simp [addGame, hv, hdup]

/-- Witness for C3: adding gameId 7 twice; the second add returns 400 and
leaves the one-entry library as it was. -/
theorem duplicate_add_rejected_unchanged_witness :
    addGame 3 (addGame 2 ⟨[], ⟨0, 0, 0⟩⟩
        ⟨some 7, some "Halo", none, none, none, [], [], some "playing"⟩).2
      ⟨some 7, some "Halo", none, none, none, [], [], some "playing"⟩ =
    (⟨400, "Game already in library"⟩,
     (addGame 2 ⟨[], ⟨0, 0, 0⟩⟩
        ⟨some 7, some "Halo", none, none, none, [], [], some "playing"⟩).2) :=
  duplicate_add_rejected_unchanged 3 _ _
    ⟨7, "Halo", none, none, none, [], [], .playing⟩ rfl (by decide)

/-- C2 (counterexample to the invariant): adding a game with status
"completed" succeeds (201) but stores the entry with dateCompleted null,
so "dateCompleted is non-null iff status = completed" fails on the code:
neither the add route nor the Mongoose default ever stamps it. -/
theorem completed_add_violates_dateCompleted_invariant :
    (addGame 5 ⟨[], ⟨0, 0, 0⟩⟩
        ⟨some 1, some "Halo", none, none, none, [], [], some "completed"⟩).1.code
      = 201 ∧
    (addGame 5 ⟨[], ⟨0, 0, 0⟩⟩
        ⟨some 1, some "Halo", none, none, none, [], [], some "completed"⟩).2.gameLibrary.map
        (fun g => (g.status, g.dateCompleted))
      = [(Status.completed, none)] := by
  constructor <;> rfl

/-- C4 (counterexample): the update route merges the request into the
entry before testing `game.status !== 'completed'`, so (first conjunct)
an update that moves a playing entry to "completed" returns 200 with the
status changed but dateCompleted still null — the stamping branch is
dead — and (second conjunct) an update that provides no status at all
(here: only notes) clears a previously non-null dateCompleted instead of
leaving it untouched. -/
theorem completed_transition_never_stamps :
    ((updateGame 99 ⟨[⟨1, "Halo", none, none, none, [], [], .playing,
          none, 10, none, ""⟩], ⟨1, 0, 0⟩⟩ 1
        ⟨some "completed", none, none⟩).1.code = 200 ∧
     (updateGame 99 ⟨[⟨1, "Halo", none, none, none, [], [], .playing,
          none, 10, none, ""⟩], ⟨1, 0, 0⟩⟩ 1
        ⟨some "completed", none, none⟩).2.gameLibrary.map
        (fun g => (g.status, g.dateCompleted)) = [(Status.completed, none)]) ∧
    ((updateGame 99 ⟨[⟨1, "Halo", none, none, none, [], [], .completed,
          none, 10, some 50, ""⟩], ⟨1, 1, 0⟩⟩ 1
        ⟨none, none, some "fun"⟩).2.gameLibrary.map
        (fun g => (g.status, g.dateCompleted)) = [(Status.completed, none)]) := by
  refine ⟨⟨?_, ?_⟩, ?_⟩ <;> rfl

/-- C9: a request body that fails schema validation is answered with 400
carrying the (first) validation error message and no state change, for
both the add and the update route; a well-formed update naming a game id
absent from the library is answered with 404 and no state change. -/
theorem validation_rejected_no_state_change :
    (∀ (now : Int) (st : UserState) (r : RawAddRequest) (m : String),
      validateAdd r = .error m → addGame now st r = (⟨400, m⟩, st)) ∧
    (∀ (now : Int) (st : UserState) (gid : Int) (r : RawUpdateRequest)
        (m : String),
      validateUpdate r = .error m → updateGame now st gid r = (⟨400, m⟩, st)) ∧
    (∀ (now : Int) (st : UserState) (gid : Int) (r : RawUpdateRequest)
        (u : UpdateRequest),
      validateUpdate r = .ok u → getGame st gid = none →
      updateGame now st gid r = (⟨404, "Game not found in library"⟩, st)) := by
  refine ⟨fun now st r m hv => ?_, fun now st gid r m hv => ?_,
    fun now st gid r u hv hg => ?_⟩
  · simp [addGame, hv]
  · simp [updateGame, hv]
  · simp [updateGame, hv, hg]

set_option maxRecDepth 8000 in
/-- Witness for C9, covering the listed failure shapes on an empty
library: an unknown status value on add, a missing required field on add,
a userRating outside 1–10 on update, over-500-character notes on update,
and a valid update for an absent game id. -/
theorem validation_rejected_no_state_change_witness :
    addGame 0 ⟨[], ⟨0, 0, 0⟩⟩
        ⟨some 1, some "Halo", none, none, none, [], [], some "done"⟩ =
      (⟨400, "\"status\" must be one of [playing, completed, dropped, plan-to-play]"⟩,
       ⟨[], ⟨0, 0, 0⟩⟩) ∧
    addGame 0 ⟨[], ⟨0, 0, 0⟩⟩ ⟨none, some "Halo", none, none, none, [], [],
        some "playing"⟩ =
      (⟨400, "\"gameId\" is required"⟩, ⟨[], ⟨0, 0, 0⟩⟩) ∧
    updateGame 0 ⟨[], ⟨0, 0, 0⟩⟩ 1 ⟨none, some (some 11), none⟩ =
      (⟨400, "\"userRating\" must be less than or equal to 10"⟩, ⟨[], ⟨0, 0, 0⟩⟩) ∧
    updateGame 0 ⟨[], ⟨0, 0, 0⟩⟩ 1 ⟨none, none, some (String.mk (List.replicate 501 'x'))⟩ =
      (⟨400, "\"notes\" length must be less than or equal to 500 characters long"⟩,
       ⟨[], ⟨0, 0, 0⟩⟩) ∧
    updateGame 0 ⟨[], ⟨0, 0, 0⟩⟩ 1 ⟨some "playing", none, none⟩ =
      (⟨404, "Game not found in library"⟩, ⟨[], ⟨0, 0, 0⟩⟩) :=
  ⟨validation_rejected_no_state_change.1 0 _ _ _ rfl,
   validation_rejected_no_state_change.1 0 _ _ _ rfl,
   validation_rejected_no_state_change.2.1 0 _ 1 _ _ rfl,
   validation_rejected_no_state_change.2.1 0 _ 1 _ _ rfl,
   validation_rejected_no_state_change.2.2 0 _ 1 _ ⟨some .playing, none, none⟩
     rfl rfl⟩

/-- The filter the routes use for completed games composed with the rated
filter equals one filter over the conjunction. -/
theorem filter_completed_rated (lib : List GameEntry) :
    (lib.filter (fun g => g.status = Status.completed)).filter
        (fun g => g.userRating ≠ none) =
      lib.filter (fun g => g.status = Status.completed ∧ g.userRating ≠ none) := by
  rw [List.filter_filter]
  congr 1
  funext a
  simp [Bool.and_comm]

/-- The averageRating branch of `computeStats`, spelled out. -/
theorem computeStats_averageRating (lib : List GameEntry) :
    (computeStats lib).averageRating =
      if 0 < ((lib.filter (fun g => g.status = Status.completed)).filter
          (fun g => g.userRating ≠ none)).length then
        ((round (((((lib.filter (fun g => g.status = Status.completed)).filter
              (fun g => g.userRating ≠ none)).map
              (fun g => g.userRating.getD 0)).sum /
            (((lib.filter (fun g => g.status = Status.completed)).filter
              (fun g => g.userRating ≠ none)).length : ℚ)) * 10) : ℤ) : ℚ) / 10
      else 0 := rfl

/-- C1: every successful mutation (add 201, update 200, remove 200)
stores stats equal to a full recomputation from the resulting library,
and that recomputation satisfies the claimed formulas: totalGames is the
number of entries, completedGames the number of completed entries, and
averageRating the mean of userRating over completed-and-rated entries
times 10, rounded, divided by 10 (one decimal place), or 0 when no entry
is both completed and rated. -/
theorem stats_recomputed_after_every_mutation :
    (∀ (now : Int) (st : UserState) (r : RawAddRequest),
      (addGame now st r).1.code = 201 →
      (addGame now st r).2.stats = computeStats (addGame now st r).2.gameLibrary) ∧
    (∀ (now : Int) (st : UserState) (gid : Int) (r : RawUpdateRequest),
      (updateGame now st gid r).1.code = 200 →
      (updateGame now st gid r).2.stats =
        computeStats (updateGame now st gid r).2.gameLibrary) ∧
    (∀ (st : UserState) (gid : Int),
      (removeGame st gid).1.code = 200 →
      (removeGame st gid).2.stats = computeStats (removeGame st gid).2.gameLibrary) ∧
    (∀ lib : List GameEntry,
      (computeStats lib).totalGames = lib.length ∧
      (computeStats lib).completedGames =
        lib.countP (fun g => g.status = Status.completed) ∧
      (((lib.filter (fun g => g.status = Status.completed ∧ g.userRating ≠ none)).map
          (fun g => g.userRating.getD 0)) = [] →
        (computeStats lib).averageRating = 0) ∧
      (∀ rs, rs = (lib.filter
            (fun g => g.status = Status.completed ∧ g.userRating ≠ none)).map
            (fun g => g.userRating.getD 0) → rs ≠ [] →
        (computeStats lib).averageRating =
          ((round ((rs.sum / (rs.length : ℚ)) * 10) : ℤ) : ℚ) / 10)) := by
  refine ⟨fun now st r h => ?_, fun now st gid r h => ?_, fun st gid h => ?_,
    fun lib => ?_⟩
  · cases hv : validateAdd r with
    | error m => simp [addGame, hv] at h
    | ok d =>
      by_cases hd : hasGame st d.gameId
      · simp [addGame, hv, hd] at h
      · simp [addGame, hv, hd]
  · cases hv : validateUpdate r with
    | error m => simp [updateGame, hv] at h
    | ok u =>
      cases hg : getGame st gid with
      | none => simp [updateGame, hv, hg] at h
      | some g => simp [updateGame, hv, hg]
  · cases hi : st.gameLibrary.findIdx? (fun g => g.gameId = gid) with
    | none => simp [removeGame, hi] at h
    | some i => simp [removeGame, hi]
  · refine ⟨rfl, ?_, ?_, ?_⟩
    · simp [computeStats, List.countP_eq_length_filter]
    · intro hrs
      rw [List.map_eq_nil_iff, ← filter_completed_rated] at hrs
      rw [computeStats_averageRating, hrs]
      simp
    · intro rs hrs hne
      rw [← filter_completed_rated] at hrs
      have hlen : ((lib.filter (fun g => g.status = Status.completed)).filter
          (fun g => g.userRating ≠ none)).length ≠ 0 := by
        intro h0
        apply hne
        rw [hrs, List.map_eq_nil_iff, ← List.length_eq_zero]
        exact h0
      rw [computeStats_averageRating, if_pos (Nat.pos_of_ne_zero hlen), hrs,
        List.length_map]

/-- Witness for C1: a concrete successful add on an empty library, a
concrete successful remove, and the recomputation formulas at a concrete
two-entry library. -/
theorem stats_recomputed_after_every_mutation_witness :
    (addGame 2 ⟨[], ⟨0, 0, 0⟩⟩
        ⟨some 7, some "Halo", none, none, none, [], [], some "playing"⟩).2.stats =
      computeStats (addGame 2 ⟨[], ⟨0, 0, 0⟩⟩
        ⟨some 7, some "Halo", none, none, none, [], [], some "playing"⟩).2.gameLibrary ∧
    (removeGame ⟨[⟨7, "Halo", none, none, none, [], [], .playing, none, 2,
        none, ""⟩], ⟨1, 0, 0⟩⟩ 7).2.stats =
      computeStats (removeGame ⟨[⟨7, "Halo", none, none, none, [], [],
        .playing, none, 2, none, ""⟩], ⟨1, 0, 0⟩⟩ 7).2.gameLibrary ∧
    (computeStats [⟨7, "Halo", none, none, none, [], [], .playing, none, 2,
        none, ""⟩]).totalGames = 1 :=
  ⟨stats_recomputed_after_every_mutation.1 2 _ _ rfl,
   stats_recomputed_after_every_mutation.2.2.1 _ 7 rfl,
   (stats_recomputed_after_every_mutation.2.2.2 _).1.trans rfl⟩

/-- `applyUpdate` never touches the entry's gameId. -/
theorem applyUpdate_gameId (now : Int) (g : GameEntry) (u : UpdateRequest) :
    (applyUpdate now g u).gameId = g.gameId := by
  cases hu : u.userRating <;>
    simp only [applyUpdate, hu] <;> split_ifs <;> rfl

/-- `replaceFirst` preserves the projection to gameIds whenever the
replacement has the same gameId as anything the predicate matches. -/
theorem replaceFirst_map_gameId (p : GameEntry → Bool) (g' : GameEntry)
    (l : List GameEntry) (h : ∀ e, p e = true → g'.gameId = e.gameId) :
    (replaceFirst p g' l).map (fun g => g.gameId) =
      l.map (fun g => g.gameId) := by
  induction l with
  | nil => rfl
  | cons x xs ih =>
    by_cases hx : p x
    · simp [replaceFirst, hx, h x hx]
    · simp [replaceFirst, hx, ih]

/-- C7: pairwise-distinct gameIds are preserved by every operation:
add refuses ids already present, update leaves the id projection of the
library literally unchanged (the schema admits no gameId field), and
remove only deletes. -/
theorem gameId_unique_preserved (st : UserState)
    (h : (st.gameLibrary.map (fun g => g.gameId)).Nodup) :
    (∀ (now : Int) (r : RawAddRequest),
      ((addGame now st r).2.gameLibrary.map (fun g => g.gameId)).Nodup) ∧
    (∀ (now : Int) (gid : Int) (r : RawUpdateRequest),
      (updateGame now st gid r).2.gameLibrary.map (fun g => g.gameId) =
        st.gameLibrary.map (fun g => g.gameId) ∧
      ((updateGame now st gid r).2.gameLibrary.map (fun g => g.gameId)).Nodup) ∧
    (∀ gid : Int,
      ((removeGame st gid).2.gameLibrary.map (fun g => g.gameId)).Nodup) := by
  refine ⟨fun now r => ?_, fun now gid r => ?_, fun gid => ?_⟩
  · cases hv : validateAdd r with
    | error m => simpa [addGame, hv] using h
    | ok d =>
      by_cases hd : hasGame st d.gameId
      · simpa [addGame, hv, hd] using h
      · have hnotin : d.gameId ∉ st.gameLibrary.map (fun g => g.gameId) := by
          intro hmem
          obtain ⟨e, he, heq⟩ := List.mem_map.mp hmem
          exact hd (List.any_eq_true.mpr ⟨e, he, by simp [heq]⟩)
        simp only [addGame, hv, hd, Bool.false_eq_true, if_false, List.map_append]
        simpa using List.Nodup.append h (by simp) (by
          simp only [List.disjoint_singleton]
          simpa using hnotin)
  · have hmap : (updateGame now st gid r).2.gameLibrary.map (fun g => g.gameId) =
        st.gameLibrary.map (fun g => g.gameId) := by
      cases hv : validateUpdate r with
      | error m => simp [updateGame, hv]
      | ok u =>
        cases hg : getGame st gid with
        | none => simp [updateGame, hv, hg]
        | some g =>
          simp only [updateGame, hv, hg]
          apply replaceFirst_map_gameId
          intro e he
          have hgid : g.gameId = gid := by
            have := List.find?_some hg
            simpa using this
          have heid : e.gameId = gid := by simpa using he
          rw [applyUpdate_gameId, hgid, heid]
    exact ⟨hmap, hmap ▸ h⟩
  · cases hi : st.gameLibrary.findIdx? (fun g => g.gameId = gid) with
    | none => simpa [removeGame, hi] using h
    | some i =>
      simp only [removeGame, hi]
      have hsub : List.Sublist
          (st.gameLibrary.take i ++ st.gameLibrary.drop (i + 1))
          st.gameLibrary := by
        rw [← List.eraseIdx_eq_take_drop_succ]
        exact List.eraseIdx_sublist st.gameLibrary i
      exact List.Nodup.sublist (hsub.map (fun g => g.gameId)) h

/-- Witness for C7: a two-entry library with distinct ids keeps distinct
ids across a remove of id 1. -/
theorem gameId_unique_preserved_witness :
    ((removeGame sampleState 1).2.gameLibrary.map (fun g => g.gameId)).Nodup :=
  (gameId_unique_preserved sampleState (by decide)).2.2 1

/-- C8: removing an id absent from the library answers 404 and leaves the
whole user state unchanged; removing a present id answers 200 and deletes
exactly the (first, hence under C7 unique) entry carrying it, keeping
every other entry in order. -/
theorem remove_missing_404_present_deletes :
    (∀ (st : UserState) (gid : Int),
      (∀ g ∈ st.gameLibrary, g.gameId ≠ gid) →
      removeGame st gid = (⟨404, "Game not found in library"⟩, st)) ∧
    (∀ (st : UserState) (gid : Int) (i : Nat),
      st.gameLibrary.findIdx? (fun g => g.gameId = gid) = some i →
      (removeGame st gid).1.code = 200 ∧
      (∃ g, st.gameLibrary[i]? = some g ∧ g.gameId = gid) ∧
      (∀ j, j < i → ∀ e, st.gameLibrary[j]? = some e → e.gameId ≠ gid) ∧
      (removeGame st gid).2.gameLibrary =
        st.gameLibrary.take i ++ st.gameLibrary.drop (i + 1)) := by
  constructor
  · intro st gid hno
    have hi : st.gameLibrary.findIdx? (fun g => g.gameId = gid) = none := by
      rw [List.findIdx?_eq_none_iff]
      intro x hx
      simp [hno x hx]
    simp [removeGame, hi]
  · intro st gid i hi
    obtain ⟨hlt, hp, hbefore⟩ := List.findIdx?_eq_some_iff_getElem.mp hi
    refine ⟨by simp [removeGame, hi], ⟨st.gameLibrary[i],
      List.getElem?_eq_getElem hlt, by simpa using hp⟩, ?_,
      by simp [removeGame, hi]⟩
    intro j hj e hje heq
    have hjlt : j < st.gameLibrary.length := Nat.lt_trans hj hlt
    rw [List.getElem?_eq_getElem hjlt] at hje
    have he : e = st.gameLibrary[j] := (Option.some.inj hje).symm
    exact hbefore j hj (by simp [← he, heq])

/-- Witness for C8: on a concrete two-entry library, removing absent id 9
returns 404 unchanged, and removing id 1 (found at index 0) keeps entry 2. -/
theorem remove_missing_404_present_deletes_witness :
    removeGame sampleState 9 = (⟨404, "Game not found in library"⟩, sampleState) ∧
    (removeGame sampleState 1).2.gameLibrary = [entryB] :=
  ⟨remove_missing_404_present_deletes.1 sampleState 9 (by decide),
   by
    have := (remove_missing_404_present_deletes.2 sampleState 1 0 (by decide)).2.2.2
    simpa [sampleState] using this⟩

/-- `replaceFirst` never changes the length. -/
theorem replaceFirst_length (p : GameEntry → Bool) (g' : GameEntry) :
    ∀ l : List GameEntry, (replaceFirst p g' l).length = l.length
  | [] => rfl
  | x :: xs => by
    by_cases hx : p x <;> simp [replaceFirst, hx, replaceFirst_length p g' xs]

/-- `replaceFirst` keeps every position whose entry fails the predicate. -/
theorem replaceFirst_getElem?_of_not (p : GameEntry → Bool) (g' : GameEntry) :
    ∀ (l : List GameEntry) (j : Nat) (e : GameEntry),
      l[j]? = some e → p e = false → (replaceFirst p g' l)[j]? = some e
  | [], j, e, hj, _ => by simp at hj
  | x :: xs, 0, e, hj, hpe => by
    simp only [List.getElem?_cons_zero, Option.some.injEq] at hj
    subst hj
    simp [replaceFirst, hpe]
  | x :: xs, j + 1, e, hj, hpe => by
    simp only [List.getElem?_cons_succ] at hj
    by_cases hx : p x
    · simpa [replaceFirst, hx] using hj
    · simpa [replaceFirst, hx] using
        replaceFirst_getElem?_of_not p g' xs j e hj hpe

/-- The element `find?` returns sits at a position that `replaceFirst`
rewrites to the replacement. -/
theorem replaceFirst_find? (p : GameEntry → Bool) (g' : GameEntry) :
    ∀ (l : List GameEntry) (g : GameEntry), l.find? p = some g →
      ∃ j : Nat, l[j]? = some g ∧ (replaceFirst p g' l)[j]? = some g'
  | [], g, hg => by simp at hg
  | x :: xs, g, hg => by
    by_cases hx : p x
    · refine ⟨0, ?_, ?_⟩
      · have hxg : some x = some g := List.find?_cons_of_pos xs hx ▸ hg
        simpa using hxg
      · simp [replaceFirst, hx]
    · rw [List.find?_cons_of_neg xs (by simpa using hx)] at hg
      obtain ⟨j, h1, h2⟩ := replaceFirst_find? p g' xs g hg
      exact ⟨j + 1, by simpa using h1, by simpa [replaceFirst, hx] using h2⟩

/-- Fields the update route can never touch (no key of updateGameSchema
maps to them, and the dateCompleted conditional leaves them alone). -/
theorem applyUpdate_fixed_fields (now : Int) (g : GameEntry)
    (u : UpdateRequest) :
    (applyUpdate now g u).name = g.name ∧
    (applyUpdate now g u).background_image = g.background_image ∧
    (applyUpdate now g u).released = g.released ∧
    (applyUpdate now g u).rating = g.rating ∧
    (applyUpdate now g u).platforms = g.platforms ∧
    (applyUpdate now g u).genres = g.genres ∧
    (applyUpdate now g u).dateAdded = g.dateAdded := by
  cases hu : u.userRating <;> simp only [applyUpdate, hu] <;> split_ifs <;>
    exact ⟨rfl, rfl, rfl, rfl, rfl, rfl, rfl⟩

/-- Fields whose key is absent from the update body keep their value
(dateCompleted aside). -/
theorem applyUpdate_absent_fields (now : Int) (g : GameEntry)
    (u : UpdateRequest) :
    (u.status = none → (applyUpdate now g u).status = g.status) ∧
    (u.userRating = none → (applyUpdate now g u).userRating = g.userRating) ∧
    (u.notes = none → (applyUpdate now g u).notes = g.notes) := by
  refine ⟨fun h => ?_, fun h => ?_, fun h => ?_⟩ <;>
    cases hu : u.userRating <;> simp only [applyUpdate, hu] <;> split_ifs <;>
      simp_all

/-- C5: a validated update of an existing entry answers 200 and only
merges the provided fields: the updated entry keeps its position, its
gameId, display metadata and dateAdded, keeps status/userRating/notes
whenever the respective key is absent from the body (dateCompleted is
governed by the completion-transition conditional instead), and every
entry at a position holding a different gameId is returned unchanged;
the library's length never changes. -/
theorem update_merges_only_provided_fields (now : Int) (st : UserState)
    (gid : Int) (r : RawUpdateRequest) (u : UpdateRequest) (g : GameEntry)
    (hv : validateUpdate r = .ok u) (hg : getGame st gid = some g) :
    (updateGame now st gid r).1.code = 200 ∧
    (updateGame now st gid r).2.gameLibrary.length = st.gameLibrary.length ∧
    (∃ j : Nat, st.gameLibrary[j]? = some g ∧
      (updateGame now st gid r).2.gameLibrary[j]? =
        some (applyUpdate now g u)) ∧
    (applyUpdate now g u).gameId = g.gameId ∧
    (applyUpdate now g u).name = g.name ∧
    (applyUpdate now g u).background_image = g.background_image ∧
    (applyUpdate now g u).released = g.released ∧
    (applyUpdate now g u).rating = g.rating ∧
    (applyUpdate now g u).platforms = g.platforms ∧
    (applyUpdate now g u).genres = g.genres ∧
    (applyUpdate now g u).dateAdded = g.dateAdded ∧
    (u.status = none → (applyUpdate now g u).status = g.status) ∧
    (u.userRating = none → (applyUpdate now g u).userRating = g.userRating) ∧
    (u.notes = none → (applyUpdate now g u).notes = g.notes) ∧
    (∀ (j : Nat) (e : GameEntry), st.gameLibrary[j]? = some e →
      e.gameId ≠ gid → (updateGame now st gid r).2.gameLibrary[j]? = some e) := by
  have hfix := applyUpdate_fixed_fields now g u
  have habs := applyUpdate_absent_fields now g u
  have hlib : (updateGame now st gid r).2.gameLibrary =
      replaceFirst (fun e => e.gameId = gid) (applyUpdate now g u)
        st.gameLibrary := by
    simp [updateGame, hv, hg]
  refine ⟨by simp [updateGame, hv, hg], ?_, ?_, applyUpdate_gameId now g u,
    hfix.1, hfix.2.1, hfix.2.2.1, hfix.2.2.2.1, hfix.2.2.2.2.1,
    hfix.2.2.2.2.2.1, hfix.2.2.2.2.2.2, habs.1, habs.2.1, habs.2.2, ?_⟩
  · rw [hlib]
    exact replaceFirst_length _ _ _
  · obtain ⟨j, h1, h2⟩ :=
      replaceFirst_find? (fun e => e.gameId = gid) (applyUpdate now g u)
        st.gameLibrary g hg
    exact ⟨j, h1, hlib ▸ h2⟩
  · intro j e hj he
    rw [hlib]
    exact replaceFirst_getElem?_of_not _ _ _ j e hj (by simpa using he)

/-- Witness for C5: updating entry 1 of the sample library with only a
userRating leaves entry 2 (at index 1) unchanged. -/
theorem update_merges_only_provided_fields_witness :
    (updateGame 9 sampleState 1 ⟨none, some (some 8), none⟩).1.code = 200 ∧
    (updateGame 9 sampleState 1
      ⟨none, some (some 8), none⟩).2.gameLibrary[1]? = some entryB :=
  ⟨(update_merges_only_provided_fields 9 sampleState 1
      ⟨none, some (some 8), none⟩ ⟨none, some (some 8), none⟩ entryA
      rfl rfl).1,
   (update_merges_only_provided_fields 9 sampleState 1
      ⟨none, some (some 8), none⟩ ⟨none, some (some 8), none⟩ entryA
      rfl rfl).2.2.2.2.2.2.2.2.2.2.2.2.2.2 1 entryB rfl (by decide)⟩

/-- `nameCmp` is antisymmetric. -/
theorem nameCmp_antisymm (a b : String) : nameCmp b a = -nameCmp a b := by
  unfold nameCmp
  rcases lt_trichotomy a b with h | rfl | h
  · rw [if_neg (asymm h), if_pos h, if_pos h]
    norm_num
  · simp [lt_irrefl]
  · rw [if_pos h, if_neg (asymm h), if_pos h]

/-- `nameCmp a b ≤ 0` captures the string order. -/
theorem nameCmp_nonpos (a b : String) : nameCmp a b ≤ 0 ↔ a ≤ b := by
  unfold nameCmp
  split_ifs with h1 h2
  · exact iff_of_true (by norm_num) h1.le
  · exact iff_of_false (by norm_num) (not_le.mpr h2)
  · exact iff_of_true le_rfl (not_lt.mp h2)

/-- Each key comparison is antisymmetric. -/
theorem jsCmp_antisymm (sortBy : String) (a b : GameEntry) :
    jsCmp sortBy b a = -jsCmp sortBy a b := by
  unfold jsCmp
  split_ifs <;>
    first
      | exact nameCmp_antisymm a.name b.name
      | (push_cast; ring)

/-- Each key comparison is transitive in the `≤ 0` sense. -/
theorem jsCmp_trans (sortBy : String) (a b c : GameEntry)
    (h1 : jsCmp sortBy a b ≤ 0) (h2 : jsCmp sortBy b c ≤ 0) :
    jsCmp sortBy a c ≤ 0 := by
  unfold jsCmp at h1 h2 ⊢
  split_ifs at h1 h2 ⊢
  · rw [nameCmp_nonpos] at h1 h2 ⊢
    exact le_trans h1 h2
  all_goals (push_cast at h1 h2 ⊢; linarith)

/-- The full comparator is antisymmetric for any order parameter. -/
theorem effCmp_antisymm (sortBy order : String) (a b : GameEntry) :
    effCmp sortBy order b a = -effCmp sortBy order a b := by
  unfold effCmp
  split_ifs
  · exact jsCmp_antisymm sortBy a b
  · rw [jsCmp_antisymm sortBy a b]

/-- Totality of the relation realised by the comparator sort. -/
theorem jsLe_total (sortBy order : String) (a b : GameEntry) :
    (jsLe sortBy order a b || jsLe sortBy order b a) = true := by
  unfold jsLe
  rcases le_total (effCmp sortBy order a b) 0 with h | h
  · simp [h]
  · have hba : effCmp sortBy order b a ≤ 0 := by
      rw [effCmp_antisymm]
      exact neg_nonpos.mpr h
    simp [hba]

/-- Transitivity of the relation realised by the comparator sort. -/
theorem jsLe_trans (sortBy order : String) (a b c : GameEntry)
    (h1 : jsLe sortBy order a b = true) (h2 : jsLe sortBy order b c = true) :
    jsLe sortBy order a c = true := by
  unfold jsLe at h1 h2 ⊢
  simp only [decide_eq_true_eq] at h1 h2 ⊢
  unfold effCmp at h1 h2 ⊢
  split_ifs at h1 h2 ⊢
  · exact jsCmp_trans sortBy a b c h1 h2
  · have h1' : jsCmp sortBy b a ≤ 0 := by
      rw [jsCmp_antisymm]
      linarith
    have h2' : jsCmp sortBy c b ≤ 0 := by
      rw [jsCmp_antisymm]
      linarith
    have h3 := jsCmp_trans sortBy c b a h2' h1'
    rw [jsCmp_antisymm] at h3
    linarith

/-- C6: for any library, any (possibly absent) status filter, any sort
key among name/rating/dateAdded/dateCompleted and any order among
asc/desc, the listing returns a permutation of exactly the entries
passing the filter (all entries when no filter is present), arranged so
that consecutive entries satisfy the comparator relation `jsLe` (sorted
by the chosen key in the chosen direction), and any two entries that
compare equal on the key keep their input order; the listing is a pure
function of the state and query, hence deterministic. -/
theorem listing_filter_sort_order (st : UserState) (stf : Option String)
    (sk ord : String)
    (_hsk : sk = "name" ∨ sk = "rating" ∨ sk = "dateAdded" ∨
      sk = "dateCompleted")
    (_hord : ord = "asc" ∨ ord = "desc") :
    (∀ s, stf = some s → s ≠ "" →
      (listGames st ⟨stf, some sk, some ord⟩).1.Perm
        (st.gameLibrary.filter (fun g => g.status.toWire = s))) ∧
    (stf = none →
      (listGames st ⟨stf, some sk, some ord⟩).1.Perm st.gameLibrary) ∧
    List.Pairwise (fun a b => jsLe sk ord a b = true)
      (listGames st ⟨stf, some sk, some ord⟩).1 ∧
    (∀ a b, effCmp sk ord a b = 0 →
      List.Sublist [a, b] (filterStage st.gameLibrary stf) →
      List.Sublist [a, b] (listGames st ⟨stf, some sk, some ord⟩).1) := by
  have hres : (listGames st ⟨stf, some sk, some ord⟩).1 =
      (filterStage st.gameLibrary stf).mergeSort (jsLe sk ord) := rfl
  refine ⟨?_, ?_, ?_, ?_⟩
  · intro s hs hne
    subst hs
    have hfs : filterStage st.gameLibrary (some s) =
        st.gameLibrary.filter (fun g => g.status.toWire = s) := by
      simp [filterStage, truthy, hne]
    rw [hres, hfs]
    exact List.mergeSort_perm _ _
  · intro h
    subst h
    rw [hres]
    exact List.mergeSort_perm _ _
  · rw [hres]
    exact List.sorted_mergeSort (jsLe_trans sk ord) (jsLe_total sk ord) _
  · intro a b h0 hsub
    rw [hres]
    exact List.pair_sublist_mergeSort (jsLe_trans sk ord)
      (jsLe_total sk ord) (by unfold jsLe; simp [h0]) hsub

/-- Witness for C6: the unfiltered listing of the sample library under
dateAdded/desc is a permutation of the stored library. -/
theorem listing_filter_sort_order_witness :
    (listGames sampleState ⟨none, some "dateAdded", some "desc"⟩).1.Perm
      sampleState.gameLibrary :=
  (listing_filter_sort_order sampleState none "dateAdded" "desc"
    (Or.inr (Or.inr (Or.inl rfl))) (Or.inr rfl)).2.1 rfl

/-- C10: when the status filter is truthy the listing leaves the user
state untouched (the sort hits a fresh filtered array); when it is not,
the stored library itself is replaced by the sorted response (the sort is
in place on the stored collection), the stats being untouched either
way — and on the sample library the default query really does reorder
the stored entries, so listing is not read-only. -/
theorem listing_sorts_stored_library_in_place :
    (∀ (st : UserState) (q : ListQuery), truthy q.status = true →
      (listGames st q).2 = st) ∧
    (∀ (st : UserState) (q : ListQuery), truthy q.status = false →
      (listGames st q).2.gameLibrary = (listGames st q).1 ∧
      (listGames st q).2.stats = st.stats) ∧
    (listGames sampleState ⟨none, none, none⟩).2.gameLibrary ≠
      sampleState.gameLibrary := by
  refine ⟨fun st q h => ?_, fun st q h => ?_, ?_⟩
  · simp [listGames, h]
  · exact ⟨by simp [listGames, h], by simp [listGames, h]⟩
  · have : (listGames sampleState ⟨none, none, none⟩).2.gameLibrary =
        List.mergeSort [entryA, entryB] (jsLe "dateAdded" "desc") := rfl
    rw [this]
    have hle : jsLe "dateAdded" "desc" entryA entryB = false := by decide
    have hms : List.mergeSort [entryA, entryB] (jsLe "dateAdded" "desc") =
        [entryB, entryA] := by
      simp [List.mergeSort, hle]
    rw [hms]
    simp [sampleState, entryA, entryB]

/-- Witness for C10: the filtered listing leaves the sample state
untouched. -/
theorem listing_sorts_stored_library_in_place_witness :
    (listGames sampleState ⟨some "playing", none, none⟩).2 = sampleState :=
  listing_sorts_stored_library_in_place.1 sampleState
    ⟨some "playing", none, none⟩ (by decide)

end GameTracker
